import Mathlib

/-!
Verification of the Meta-ads data pipeline (`get_data.py`): creative format
classification, bulk image-hash resolution, per-video retry resolution,
download materialization, pagination, hierarchy building and flattening.
Python dictionaries are modelled as association lists (preserving insertion
order), JSON values by explicit sum types, and every network interaction by
an oracle argument so that all exception paths of the source appear as
explicit response constructors.
-/

namespace GetData

/-- Python truthiness of an optional string: `None` and `""` are falsy. -/
def truthyS : Option String → Bool
  | some s => s ≠ ""
  | none => false

/-- Python truthiness of an optional list: `None` and `[]` are falsy. -/
def truthyL {α : Type} : Option (List α) → Bool
  | some l => !l.isEmpty
  | none => false

/-! ### Creative data model (`creative` JSON sub-object) -/

/-- An item of `asset_feed_spec.videos`. -/
structure VideoAsset where
  video_id : Option String
deriving DecidableEq, Repr

/-- An item of `asset_feed_spec.images`. -/
structure ImageAsset where
  url : Option String
deriving DecidableEq, Repr

/-- The `asset_feed_spec` sub-object. -/
structure AssetFeedSpec where
  videos : Option (List VideoAsset)
  images : Option (List ImageAsset)
deriving DecidableEq, Repr

/-- The `object_story_spec.video_data` sub-object (fields used by
classification). -/
structure VideoData where
  video_id : Option String
deriving DecidableEq, Repr

/-- A carousel child attachment (fields used by the pipeline). -/
structure ChildAttachment where
  image_hash : Option String
deriving DecidableEq, Repr

/-- The `object_story_spec.link_data` sub-object. -/
structure LinkData where
  child_attachments : Option (List ChildAttachment)
deriving DecidableEq, Repr

/-- The `object_story_spec.photo_data` sub-object; `some` models a non-empty
photo_data JSON object (an absent or empty object is falsy in Python and is
modelled by `none`). -/
structure PhotoData where
  image_hash : Option String
  url : Option String
deriving DecidableEq, Repr

/-- The `object_story_spec` sub-object. -/
structure ObjectStorySpec where
  link_data : Option LinkData
  video_data : Option VideoData
  photo_data : Option PhotoData
deriving DecidableEq, Repr

/-- An ad creative; `Option Creative` with `none` models a falsy creative
(`None` or the empty dict), matching `if not ad_creative` in the source. -/
structure Creative where
  image_url : Option String
  image_hash : Option String
  thumbnail_url : Option String
  asset_feed_spec : Option AssetFeedSpec
  object_story_spec : Option ObjectStorySpec
deriving DecidableEq, Repr

/-- `determine_format_category` from `get_data.py`: nested null-safe lookups
(`safe_get`) become `Option.bind` chains, Python truthiness of the looked-up
value becomes `truthyS`/`truthyL`/`Option.isSome`. -/
def determine_format_category (c? : Option Creative) : String :=
  match c? with
  | none => "Unknown"
  | some c =>
    if truthyL (c.asset_feed_spec.bind (·.videos))
        || truthyS ((c.object_story_spec.bind (·.video_data)).bind (·.video_id)) then
      "Video/Reel"
    else if truthyL ((c.object_story_spec.bind (·.link_data)).bind (·.child_attachments)) then
      "Carousel"
    else if truthyS c.image_url || truthyL (c.asset_feed_spec.bind (·.images))
        || truthyS c.image_hash || truthyS c.thumbnail_url
        || (c.object_story_spec.bind (·.photo_data)).isSome then
      "Static Image"
    else
      "Unknown"

/-- Whether the creative has a populated video reference (a non-empty
`asset_feed_spec.videos` list or a non-empty `object_story_spec.video_data.video_id`). -/
def videoPresent (c? : Option Creative) : Bool :=
  match c? with
  | none => false
  | some c =>
    truthyL (c.asset_feed_spec.bind (·.videos))
      || truthyS ((c.object_story_spec.bind (·.video_data)).bind (·.video_id))

/-- Whether the creative has a populated carousel (non-empty
`object_story_spec.link_data.child_attachments`). -/
def carouselPresent (c? : Option Creative) : Bool :=
  match c? with
  | none => false
  | some c => truthyL ((c.object_story_spec.bind (·.link_data)).bind (·.child_attachments))

/-- Whether the creative has a populated static-image reference (any of
`image_url`, `asset_feed_spec.images`, `image_hash`, `thumbnail_url`,
`object_story_spec.photo_data`). -/
def imagePresent (c? : Option Creative) : Bool :=
  match c? with
  | none => false
  | some c =>
    truthyS c.image_url || truthyL (c.asset_feed_spec.bind (·.images))
      || truthyS c.image_hash || truthyS c.thumbnail_url
      || (c.object_story_spec.bind (·.photo_data)).isSome

/-- Modelled from the spec: the priority classifier over presence bits,
video > carousel > static image > unknown. -/
def specFormatOfPresence (video carousel image : Bool) : String :=
  if video then "Video/Reel"
  else if carousel then "Carousel"
  else if image then "Static Image"
  else "Unknown"

/-- A sample creative realizing a given presence combination: the video bit
via `asset_feed_spec.videos`, the carousel bit via child attachments, the
image bit via `image_url`. -/
def sampleCreative (video carousel image : Bool) : Creative :=
  { image_url := if image then some "http://img" else none
    image_hash := none
    thumbnail_url := none
    asset_feed_spec :=
      if video then some { videos := some [{ video_id := some "123" }], images := none }
      else none
    object_story_spec :=
      if carousel then
        some { link_data := some { child_attachments := some [{ image_hash := some "h" }] }
               video_data := none
               photo_data := none }
      else none }

/-! ### Bulk image-hash resolution (`fetch_image_urls`) -/

/-- Lookup in an insertion-ordered association list (a Python dict). -/
def alookup {α : Type} : List (String × α) → String → Option α
  | [], _ => none
  | (k, v) :: rest, key => if k = key then some v else alookup rest key

/-- Python dict assignment `d[k] = v`: replace the value in place when the
key exists (keeping its position), append a new entry otherwise. -/
def dinsert (m : List (String × String)) (k v : String) : List (String × String) :=
  match m with
  | [] => [(k, v)]
  | (k', v') :: rest => if k' = k then (k, v) :: rest else (k', v') :: dinsert rest k v

/-- One item of a bulk-lookup reply's `data` array: its optional `hash` and
`url` fields. -/
abbrev ReplyItem := Option String × Option String

/-- The outcome of one bulk image-lookup request, covering every path the
source handles: a 200 JSON body without an `error` field (`ok`), a 200 JSON
body carrying an `error` field, a timeout, an HTTP error status, another
request exception, and a non-JSON body. -/
inductive IResp where
  | ok (items : List ReplyItem)
  | apiError
  | timeout
  | httpError (status : Nat)
  | reqError
  | jsonError
deriving DecidableEq, Repr

/-- The merge loop over a reply's `data` items: an item is merged only when
both its `hash` and `url` are truthy (`if h and u`), by dict assignment. -/
def mergeItems (m : List (String × String)) : List ReplyItem → List (String × String)
  | [] => m
  | (some h, some u) :: rest =>
      if h ≠ "" ∧ u ≠ "" then mergeItems (dinsert m h u) rest else mergeItems m rest
  | _ :: rest => mergeItems m rest

/-- Structural worker for `chunksOf`: the fuel argument only bounds the
number of chunks (any fuel at least the list length gives the full
chunking, since each step consumes at least one element when `bs ≥ 1`). -/
def chunksGo (bs : Nat) : Nat → List String → List (List String)
  | 0, _ => []
  | _ + 1, [] => []
  | fuel + 1, x :: xs => (x :: xs).take bs :: chunksGo bs fuel (xs.drop (bs - 1))

/-- `range(0, len(hash_list), batch_size)` chunking: successive slices of at
most `bs` elements (meaningful for `bs ≥ 1`, as in the source where the
batch size is the positive platform limit 100). -/
def chunksOf (bs : Nat) (l : List String) : List (List String) :=
  chunksGo bs l.length l

/-- The per-chunk loop of `fetch_image_urls`: chunk `i` gets response
`oracle i`; on `ok` the items are merged, every failure branch (API error
field, timeout, HTTP error, request error, JSON decode error) logs and
continues to the next chunk. -/
def runImageChunks (oracle : Nat → IResp) :
    Nat → List (List String) → List (String × String) → List (String × String)
  | _, [], m => m
  | i, _chunk :: rest, m =>
      match oracle i with
      | .ok items => runImageChunks oracle (i + 1) rest (mergeItems m items)
      | .apiError => runImageChunks oracle (i + 1) rest m
      | .timeout => runImageChunks oracle (i + 1) rest m
      | .httpError _ => runImageChunks oracle (i + 1) rest m
      | .reqError => runImageChunks oracle (i + 1) rest m
      | .jsonError => runImageChunks oracle (i + 1) rest m

/-- The result of `fetch_image_urls`: the accumulated `hash_url_map` and the
chunk contents of the issued requests. -/
structure ImageFetch where
  map : List (String × String)
  requests : List (List String)
deriving DecidableEq, Repr

/-- `fetch_image_urls` from `get_data.py`: empty input returns the empty map
with no request; otherwise one request per `batch_size`-chunk of the hash
list, merging successful replies, skipping failed chunks. -/
def fetch_image_urls (hash_list : List String) (oracle : Nat → IResp) (batch_size : Nat) :
    ImageFetch :=
  if hash_list.isEmpty then { map := [], requests := [] }
  else
    { map := runImageChunks oracle 0 (chunksOf batch_size hash_list) []
      requests := chunksOf batch_size hash_list }

/-- Modelled from the spec wording of C4 only as a comparison point: the URL
of the last reply item for a hash that passes the merge guard. -/
def lastURL : List ReplyItem → String → Option String
  | [], _ => none
  | (some h', some u) :: rest, h =>
      if h' = h ∧ h' ≠ "" ∧ u ≠ "" then
        match lastURL rest h with
        | some w => some w
        | none => some u
      else lastURL rest h
  | _ :: rest, h => lastURL rest h

lemma mem_dinsert : ∀ {m : List (String × String)} {k v : String} {p : String × String},
    p ∈ dinsert m k v → p = (k, v) ∨ p ∈ m := by
  intro m
  induction m with
  | nil =>
    intro k v p hp
    simp only [dinsert, List.mem_singleton] at hp
    exact Or.inl hp
  | cons q rest ih =>
    intro k v p hp
    obtain ⟨k', v'⟩ := q
    simp only [dinsert] at hp
    by_cases h : k' = k
    · rw [if_pos h] at hp
      rcases List.mem_cons.mp hp with h1 | h1
      · exact Or.inl h1
      · exact Or.inr (List.mem_cons_of_mem _ h1)
    · rw [if_neg h] at hp
      rcases List.mem_cons.mp hp with h1 | h1
      · exact Or.inr (h1 ▸ List.mem_cons_self _ _)
      · rcases ih h1 with h2 | h2
        · exact Or.inl h2
        · exact Or.inr (List.mem_cons_of_mem _ h2)

lemma alookup_dinsert (m : List (String × String)) (k v key : String) :
    alookup (dinsert m k v) key = if key = k then some v else alookup m key := by
  induction m with
  | nil =>
    by_cases h : k = key
    · simp [dinsert, alookup, h]
    · simp [dinsert, alookup, h, Ne.symm h]
  | cons q rest ih =>
    obtain ⟨k', v'⟩ := q
    by_cases h1 : k' = k
    · subst h1
      by_cases h2 : k' = key
      · simp [dinsert, alookup, h2]
      · simp [dinsert, alookup, h2, Ne.symm h2]
    · by_cases h2 : k' = key
      · have h3 : ¬key = k := fun hh => h1 (h2.trans hh)
        simp [dinsert, alookup, h1, h2, h3]
      · simp [dinsert, alookup, h1, h2, ih]

lemma mem_mergeItems : ∀ (items : List ReplyItem) (m : List (String × String))
    (p : String × String), p ∈ mergeItems m items →
    p ∈ m ∨ (some p.1, some p.2) ∈ items := by
  intro items
  induction items with
  | nil =>
    intro m p hp
    exact Or.inl hp
  | cons q rest ih =>
    intro m p hp
    obtain ⟨h?, u?⟩ := q
    match h?, u? with
    | some h, some u =>
      simp only [mergeItems] at hp
      by_cases hg : h ≠ "" ∧ u ≠ ""
      · rw [if_pos hg] at hp
        rcases ih _ p hp with h1 | h1
        · rcases mem_dinsert h1 with h2 | h2
          · right
            rw [h2]
            exact List.mem_cons_self _ _
          · exact Or.inl h2
        · exact Or.inr (List.mem_cons_of_mem _ h1)
      · rw [if_neg hg] at hp
        rcases ih _ p hp with h1 | h1
        · exact Or.inl h1
        · exact Or.inr (List.mem_cons_of_mem _ h1)
    | none, u? =>
      simp only [mergeItems] at hp
      rcases ih _ p hp with h1 | h1
      · exact Or.inl h1
      · exact Or.inr (List.mem_cons_of_mem _ h1)
    | some h, none =>
      simp only [mergeItems] at hp
      rcases ih _ p hp with h1 | h1
      · exact Or.inl h1
      · exact Or.inr (List.mem_cons_of_mem _ h1)

lemma mergeItems_values : ∀ (items : List ReplyItem) (m : List (String × String)),
    (∀ p ∈ m, p.1 ≠ "" ∧ p.2 ≠ "") →
    ∀ p ∈ mergeItems m items, p.1 ≠ "" ∧ p.2 ≠ "" := by
  intro items
  induction items with
  | nil =>
    intro m hm p hp
    exact hm p hp
  | cons q rest ih =>
    intro m hm p hp
    obtain ⟨h?, u?⟩ := q
    match h?, u? with
    | some h, some u =>
      simp only [mergeItems] at hp
      by_cases hg : h ≠ "" ∧ u ≠ ""
      · rw [if_pos hg] at hp
        refine ih _ ?_ p hp
        intro r hr
        rcases mem_dinsert hr with h2 | h2
        · rw [h2]
          exact hg
        · exact hm r h2
      · rw [if_neg hg] at hp
        exact ih _ hm p hp
    | none, u? =>
      simp only [mergeItems] at hp
      exact ih _ hm p hp
    | some h, none =>
      simp only [mergeItems] at hp
      exact ih _ hm p hp

lemma mem_runImageChunks (oracle : Nat → IResp) :
    ∀ (chunks : List (List String)) (i : Nat) (m : List (String × String))
      (p : String × String), p ∈ runImageChunks oracle i chunks m →
    p ∈ m ∨ ∃ j items, oracle j = IResp.ok items ∧ (some p.1, some p.2) ∈ items := by
  intro chunks
  induction chunks with
  | nil =>
    intro i m p hp
    exact Or.inl hp
  | cons c rest ih =>
    intro i m p hp
    simp only [runImageChunks] at hp
    cases horacle : oracle i with
    | ok items =>
      rw [horacle] at hp
      rcases ih (i + 1) _ p hp with h1 | h1
      · rcases mem_mergeItems items m p h1 with h2 | h2
        · exact Or.inl h2
        · exact Or.inr ⟨i, items, horacle, h2⟩
      · exact Or.inr h1
    | apiError => rw [horacle] at hp; exact ih (i + 1) m p hp
    | timeout => rw [horacle] at hp; exact ih (i + 1) m p hp
    | httpError s => rw [horacle] at hp; exact ih (i + 1) m p hp
    | reqError => rw [horacle] at hp; exact ih (i + 1) m p hp
    | jsonError => rw [horacle] at hp; exact ih (i + 1) m p hp

lemma runImageChunks_values (oracle : Nat → IResp) :
    ∀ (chunks : List (List String)) (i : Nat) (m : List (String × String)),
    (∀ p ∈ m, p.1 ≠ "" ∧ p.2 ≠ "") →
    ∀ p ∈ runImageChunks oracle i chunks m, p.1 ≠ "" ∧ p.2 ≠ "" := by
  intro chunks
  induction chunks with
  | nil =>
    intro i m hm p hp
    exact hm p hp
  | cons c rest ih =>
    intro i m hm p hp
    simp only [runImageChunks] at hp
    cases horacle : oracle i with
    | ok items =>
      rw [horacle] at hp
      exact ih (i + 1) _ (mergeItems_values items m hm) p hp
    | apiError => rw [horacle] at hp; exact ih (i + 1) m hm p hp
    | timeout => rw [horacle] at hp; exact ih (i + 1) m hm p hp
    | httpError s => rw [horacle] at hp; exact ih (i + 1) m hm p hp
    | reqError => rw [horacle] at hp; exact ih (i + 1) m hm p hp
    | jsonError => rw [horacle] at hp; exact ih (i + 1) m hm p hp

lemma chunksGo_length_100 : ∀ (fuel : Nat) (l : List String), l.length ≤ fuel →
    (chunksGo 100 fuel l).length = (l.length + 99) / 100 := by
  intro fuel
  induction fuel with
  | zero =>
    intro l hl
    have hnil : l = [] := List.eq_nil_of_length_eq_zero (Nat.le_zero.mp hl)
    subst hnil
    simp [chunksGo]
  | succ fuel ih =>
    intro l hl
    cases l with
    | nil => simp [chunksGo]
    | cons x xs =>
      simp only [chunksGo, List.length_cons]
      simp only [List.length_cons] at hl
      rw [ih (xs.drop 99) (by simp only [List.length_drop]; omega)]
      simp only [List.length_drop]
      omega

lemma chunksGo_mem_length : ∀ (fuel : Nat) (l : List String),
    ∀ c ∈ chunksGo 100 fuel l, c.length ≤ 100 := by
  intro fuel
  induction fuel with
  | zero =>
    intro l c hc
    simp [chunksGo] at hc
  | succ fuel ih =>
    intro l c hc
    cases l with
    | nil => simp [chunksGo] at hc
    | cons x xs =>
      simp only [chunksGo] at hc
      rcases List.mem_cons.mp hc with h1 | h1
      · rw [h1]
        simp [List.length_take]
      · exact ih (xs.drop 99) c h1

lemma chunksOf_length_100 (l : List String) :
    (chunksOf 100 l).length = (l.length + 99) / 100 :=
  chunksGo_length_100 l.length l le_rfl

lemma chunksOf_mem_length (l : List String) :
    ∀ c ∈ chunksOf 100 l, c.length ≤ 100 :=
  chunksGo_mem_length l.length l

lemma mergeItems_last_wins :
    ∀ (items : List ReplyItem) (m : List (String × String)) (h : String),
      alookup (mergeItems m items) h =
        match lastURL items h with
        | some u => some u
        | none => alookup m h := by
  intro items
  induction items with
  | nil =>
    intro m h
    rfl
  | cons q rest ih =>
    intro m h
    obtain ⟨h?, u?⟩ := q
    match h?, u? with
    | some h', some u =>
      by_cases hg : h' ≠ "" ∧ u ≠ ""
      · by_cases heq : h' = h
        · subst heq
          have hguard : h' = h' ∧ h' ≠ "" ∧ u ≠ "" := ⟨rfl, hg⟩
          simp only [mergeItems, lastURL, if_pos hg, if_pos hguard]
          rw [ih, alookup_dinsert]
          simp only [if_pos rfl]
          cases hrest : lastURL rest h' <;> simp [hg.1, hg.2]
        · have hguard : ¬(h' = h ∧ h' ≠ "" ∧ u ≠ "") := fun hc => heq hc.1
          simp only [mergeItems, lastURL, if_pos hg, if_neg hguard]
          rw [ih, alookup_dinsert, if_neg (fun hh => heq hh.symm)]
      · have hguard : ¬(h' = h ∧ h' ≠ "" ∧ u ≠ "") := fun hc => hg hc.2
        simp only [mergeItems, lastURL, if_neg hg, if_neg hguard]
        exact ih m h
    | none, u? =>
      simp only [mergeItems, lastURL]
      exact ih m h
    | some h', none =>
      simp only [mergeItems, lastURL]
      exact ih m h

/-- C3: for N unique hashes and chunk size 100, `fetch_image_urls` issues
exactly ⌈N/100⌉ bulk requests, each covering at most 100 hashes, and — when
the server's replies only mention requested hashes — the key set of the
returned map is a subset of the input hash set. -/
theorem c3_chunking_invariant (hl : List String) (oracle : Nat → IResp)
    (hfaithful : ∀ i items, oracle i = IResp.ok items →
      ∀ q ∈ items, ∀ h, q.1 = some h → h ∈ hl) :
    (fetch_image_urls hl oracle 100).requests.length = (hl.length + 99) / 100
    ∧ (∀ c ∈ (fetch_image_urls hl oracle 100).requests, c.length ≤ 100)
    ∧ (∀ p ∈ (fetch_image_urls hl oracle 100).map, p.1 ∈ hl) := by
  by_cases hnil : hl.isEmpty
  · have hl0 : hl = [] := by
      cases hl with
      | nil => rfl
      | cons a as => simp at hnil
    subst hl0
    refine ⟨by simp [fetch_image_urls], ?_, ?_⟩
    · intro c hc
      simp [fetch_image_urls] at hc
    · intro p hp
      simp [fetch_image_urls] at hp
  · unfold fetch_image_urls
    rw [if_neg hnil]
    refine ⟨chunksOf_length_100 hl, chunksOf_mem_length hl, ?_⟩
    intro p hp
    rcases mem_runImageChunks oracle _ 0 [] p hp with h1 | ⟨j, items, hor, hit⟩
    · simp at h1
    · exact hfaithful j items hor _ hit p.1 rfl

/-- Witness for C3 at a concrete input: two hashes, a server that always
fails with a request error (so the faithfulness hypothesis holds vacuously);
one request of two hashes is issued and the map is empty. -/
theorem c3_chunking_invariant_witness :
    ((fetch_image_urls ["a", "b"] (fun _ => IResp.reqError) 100).requests.length
        = ((["a", "b"] : List String).length + 99) / 100)
    ∧ (∀ c ∈ (fetch_image_urls ["a", "b"] (fun _ => IResp.reqError) 100).requests,
        c.length ≤ 100)
    ∧ (∀ p ∈ (fetch_image_urls ["a", "b"] (fun _ => IResp.reqError) 100).map,
        p.1 ∈ (["a", "b"] : List String)) :=
  c3_chunking_invariant ["a", "b"] (fun _ => IResp.reqError)
    (fun _ _ h => nomatch h)

/-- C4 counterexample: a single reply carrying two items for the same hash.
The claim says the first-seen URL is never replaced, but the accumulated map
holds the second URL and the first-seen pair is gone. -/
theorem c4_counterexample :
    (fetch_image_urls ["h1"]
        (fun _ => IResp.ok [(some "h1", some "u1"), (some "h1", some "u2")]) 100).map
      = [("h1", "u2")]
    ∧ ("h1", "u1") ∉ (fetch_image_urls ["h1"]
        (fun _ => IResp.ok [(some "h1", some "u1"), (some "h1", some "u2")]) 100).map := by
  refine ⟨rfl, by decide⟩

/-- C4 amended: when a reply contains a hash already present in the
accumulated map, the item is logged and then overwrites the existing entry,
so the LAST-seen URL for a hash wins: after merging a reply, the map binds
each hash to the last guard-passing URL of the reply when one exists, and to
its previous value otherwise. -/
theorem c4_collision_overwrites (items : List ReplyItem) (m : List (String × String))
    (h : String) :
    alookup (mergeItems m items) h =
      match lastURL items h with
      | some u => some u
      | none => alookup m h :=
  mergeItems_last_wins items m h

/-- C10: every entry of the map returned by `fetch_image_urls` has a
non-empty hash and a non-empty URL — the merge guard admits an item only
when both fields are present and truthy. -/
theorem c10_resolved_values_nonempty (hl : List String) (oracle : Nat → IResp)
    (p : String × String) (hp : p ∈ (fetch_image_urls hl oracle 100).map) :
    p.1 ≠ "" ∧ p.2 ≠ "" := by
  by_cases hnil : hl.isEmpty
  · unfold fetch_image_urls at hp
    rw [if_pos hnil] at hp
    simp at hp
  · unfold fetch_image_urls at hp
    rw [if_neg hnil] at hp
    refine runImageChunks_values oracle _ 0 [] ?_ p hp
    intro r hr
    simp at hr

/-- Witness for C10 at a concrete input: one hash resolved by a successful
reply; its entry is in the map and both components are non-empty. -/
theorem c10_resolved_values_nonempty_witness :
    (("h", "u") ∈ (fetch_image_urls ["h"]
        (fun _ => IResp.ok [(some "h", some "u")]) 100).map)
    ∧ (("h", "u") : String × String).1 ≠ "" ∧ (("h", "u") : String × String).2 ≠ "" :=
  ⟨by decide, c10_resolved_values_nonempty ["h"]
    (fun _ => IResp.ok [(some "h", some "u")]) ("h", "u") (by decide)⟩

/-! ### Per-video resolution with backoff (`fetch_video_urls_with_backoff`) -/

/-- The outcome of one per-video lookup request: a 200 response whose JSON
body is the given association list (`ok (some body)`; `ok none` models a
non-JSON 200 body, whose `res.json()` raises a request exception caught by
the backoff handler), an HTTP error status whose error body carries the
given `error.code` when it parses as JSON, or another request exception
(timeout, connection error). -/
inductive VResp where
  | ok (body : Option (List (String × String)))
  | httpError (status : Nat) (errorCode : Option Nat)
  | reqError
deriving DecidableEq, Repr

/-- Prepend the request record of one attempt (and its backoff sleep, when
one was taken) to the trace of the later attempts. -/
def consAttempt (vid : String) (attempt : Nat) (sl? : Option Nat)
    (r : Option String × List (String × Nat) × List Nat) :
    Option String × List (String × Nat) × List Nat :=
  (r.1, (vid, attempt) :: r.2.1,
    match sl? with
    | some d => d :: r.2.2
    | none => r.2.2)

/-- The `for attempt in range(max_retries)` loop of
`fetch_video_urls_with_backoff` for one video id, returning the resolved
source URL (if any), the requests `(vid, attempt)` issued, and the backoff
sleeps taken. Structural recursion on `remaining`, invoked with
`remaining = max_retries` so that an iteration runs exactly when
`attempt < max_retries`. Branches mirror the source: a body with `source`
resolves and breaks; a body without it is a soft miss, retried immediately
(no sleep) unless this was the last attempt; HTTP 400 with error code 10
skips the id at once; HTTP 500/502/503/504 before the last attempt sleeps
`base_delay * 2 ^ attempt` and retries; any other HTTP error breaks; other
request exceptions back off and retry like 5xx. -/
def videoLoop (oracle : String → Nat → VResp) (maxR baseD : Nat) (vid : String) :
    Nat → Nat → Option String × List (String × Nat) × List Nat
  | _, 0 => (none, [], [])
  | attempt, remaining + 1 =>
    match oracle vid attempt with
    | .ok (some body) =>
      match alookup body "source" with
      | some src => (some src, [(vid, attempt)], [])
      | none =>
        if attempt = maxR - 1 then (none, [(vid, attempt)], [])
        else consAttempt vid attempt none
          (videoLoop oracle maxR baseD vid (attempt + 1) remaining)
    | .ok none =>
      if attempt < maxR - 1 then
        consAttempt vid attempt (some (baseD * 2 ^ attempt))
          (videoLoop oracle maxR baseD vid (attempt + 1) remaining)
      else (none, [(vid, attempt)], [])
    | .httpError status code =>
      if status = 400 ∧ code = some 10 then (none, [(vid, attempt)], [])
      else if (status = 500 ∨ status = 502 ∨ status = 503 ∨ status = 504)
          ∧ attempt < maxR - 1 then
        consAttempt vid attempt (some (baseD * 2 ^ attempt))
          (videoLoop oracle maxR baseD vid (attempt + 1) remaining)
      else (none, [(vid, attempt)], [])
    | .reqError =>
      if attempt < maxR - 1 then
        consAttempt vid attempt (some (baseD * 2 ^ attempt))
          (videoLoop oracle maxR baseD vid (attempt + 1) remaining)
      else (none, [(vid, attempt)], [])

/-- The result of `fetch_video_urls_with_backoff`: the `video_url_map`, the
issued requests `(vid, attempt)`, and the backoff sleeps taken. -/
structure VideoFetch where
  map : List (String × String)
  requests : List (String × Nat)
  sleeps : List Nat
deriving DecidableEq, Repr

/-- Processing of one video id: run its attempt loop, record its resolution
(dict assignment `video_url_map[vid] = data['source']`) on success, and
append its trace. -/
def videoStep (oracle : String → Nat → VResp) (maxR baseD : Nat)
    (acc : VideoFetch) (vid : String) : VideoFetch :=
  match (videoLoop oracle maxR baseD vid 0 maxR).1 with
  | some src =>
      { map := dinsert acc.map vid src
        requests := acc.requests ++ (videoLoop oracle maxR baseD vid 0 maxR).2.1
        sleeps := acc.sleeps ++ (videoLoop oracle maxR baseD vid 0 maxR).2.2 }
  | none =>
      { map := acc.map
        requests := acc.requests ++ (videoLoop oracle maxR baseD vid 0 maxR).2.1
        sleeps := acc.sleeps ++ (videoLoop oracle maxR baseD vid 0 maxR).2.2 }

/-- `fetch_video_urls_with_backoff` from `get_data.py`. -/
def fetch_video_urls_with_backoff (vids : List String)
    (oracle : String → Nat → VResp) (max_retries base_delay : Nat) : VideoFetch :=
  vids.foldl (videoStep oracle max_retries base_delay)
    { map := [], requests := [], sleeps := [] }

lemma videoLoop_resolved (oracle : String → Nat → VResp) (maxR baseD : Nat)
    (vid : String) : ∀ (remaining attempt : Nat) (src : String),
    (videoLoop oracle maxR baseD vid attempt remaining).1 = some src →
    ∃ a body, oracle vid a = VResp.ok (some body)
      ∧ alookup body "source" = some src := by
  intro remaining
  induction remaining with
  | zero =>
    intro attempt src h
    simp [videoLoop] at h
  | succ remaining ih =>
    intro attempt src h
    rw [videoLoop] at h
    cases horacle : oracle vid attempt with
    | ok body? =>
      rw [horacle] at h
      cases body? with
      | some body =>
        dsimp only at h
        cases hsrc : alookup body "source" with
        | some s =>
          rw [hsrc] at h
          dsimp only at h
          simp only [Option.some.injEq] at h
          exact ⟨attempt, body, horacle, by rw [hsrc, h]⟩
        | none =>
          rw [hsrc] at h
          dsimp only at h
          by_cases hlast : attempt = maxR - 1
          · rw [if_pos hlast] at h
            simp at h
          · rw [if_neg hlast] at h
            exact ih (attempt + 1) src h
      | none =>
        dsimp only at h
        by_cases hretry : attempt < maxR - 1
        · rw [if_pos hretry] at h
          exact ih (attempt + 1) src h
        · rw [if_neg hretry] at h
          simp at h
    | httpError status code =>
      rw [horacle] at h
      dsimp only at h
      by_cases h400 : status = 400 ∧ code = some 10
      · rw [if_pos h400] at h
        simp at h
      · rw [if_neg h400] at h
        by_cases h5xx : (status = 500 ∨ status = 502 ∨ status = 503 ∨ status = 504)
            ∧ attempt < maxR - 1
        · rw [if_pos h5xx] at h
          exact ih (attempt + 1) src h
        · rw [if_neg h5xx] at h
          simp at h
    | reqError =>
      rw [horacle] at h
      dsimp only at h
      by_cases hretry : attempt < maxR - 1
      · rw [if_pos hretry] at h
        exact ih (attempt + 1) src h
      · rw [if_neg hretry] at h
        simp at h

lemma fetch_video_mem (oracle : String → Nat → VResp) (maxR baseD : Nat) :
    ∀ (vids : List String) (acc : VideoFetch),
    (∀ p ∈ acc.map, ∃ a body, oracle p.1 a = VResp.ok (some body)
      ∧ alookup body "source" = some p.2) →
    ∀ p ∈ (vids.foldl (videoStep oracle maxR baseD) acc).map,
    ∃ a body, oracle p.1 a = VResp.ok (some body)
      ∧ alookup body "source" = some p.2 := by
  intro vids
  induction vids with
  | nil =>
    intro acc hacc p hp
    exact hacc p hp
  | cons vid rest ih =>
    intro acc hacc p hp
    rw [List.foldl_cons] at hp
    refine ih (videoStep oracle maxR baseD acc vid) ?_ p hp
    intro q hq
    cases hloop : (videoLoop oracle maxR baseD vid 0 maxR).1 with
    | some src =>
      simp only [videoStep, hloop] at hq
      rcases mem_dinsert hq with h1 | h1
      · subst h1
        exact videoLoop_resolved oracle maxR baseD vid maxR 0 src hloop
      · exact hacc q h1
    | none =>
      simp only [videoStep, hloop] at hq
      exact hacc q hq

/-- C1: the Media Resolver functions degrade every failure to absence: both
are total functions over every oracle (modelling that all exception paths
are caught), and every entry of a returned (possibly partial) map stems
from a successful response — an image entry from an `ok` reply item carrying
its hash and URL, a video entry from an attempt whose 200 JSON body carried
the `source` field. Hence a reference all of whose lookups failed (timeout,
HTTP error, non-JSON body, missing field, permission error) is absent. -/
theorem c1_resolvers_partial_failure (hl : List String) (ioracle : Nat → IResp)
    (vids : List String) (voracle : String → Nat → VResp) (maxR baseD : Nat) :
    (∀ p ∈ (fetch_image_urls hl ioracle 100).map,
      ∃ j items, ioracle j = IResp.ok items ∧ (some p.1, some p.2) ∈ items)
    ∧ (∀ p ∈ (fetch_video_urls_with_backoff vids voracle maxR baseD).map,
      ∃ a body, voracle p.1 a = VResp.ok (some body)
        ∧ alookup body "source" = some p.2) := by
  constructor
  · intro p hp
    by_cases hnil : hl.isEmpty
    · unfold fetch_image_urls at hp
      rw [if_pos hnil] at hp
      simp at hp
    · unfold fetch_image_urls at hp
      rw [if_neg hnil] at hp
      rcases mem_runImageChunks ioracle _ 0 [] p hp with h1 | h1
      · simp at h1
      · exact h1
  · intro p hp
    refine fetch_video_mem voracle maxR baseD vids _ ?_ p hp
    intro q hq
    simp at hq

/-- Witness for C1 at concrete inputs: one hash resolved by a successful
reply and one video resolved by a 200 body carrying `source`; both map
entries are traced back to their successful responses by the theorem. -/
theorem c1_resolvers_partial_failure_witness :
    (∃ j items, (fun _ : Nat => IResp.ok [(some "h", some "u")]) j = IResp.ok items
        ∧ ((some "h", some "u") : ReplyItem) ∈ items)
    ∧ (∃ a body, (fun (_ : String) (_ : Nat) => VResp.ok (some [("source", "s")])) "v" a
        = VResp.ok (some body) ∧ alookup body "source" = some "s") :=
  ⟨(c1_resolvers_partial_failure ["h"] (fun _ => IResp.ok [(some "h", some "u")])
      [] (fun _ _ => VResp.reqError) 3 1).1 ("h", "u") (by decide),
   (c1_resolvers_partial_failure [] (fun _ => IResp.reqError)
      ["v"] (fun _ _ => VResp.ok (some [("source", "s")])) 3 1).2 ("v", "s") (by decide)⟩

/-- C2 counterexample: for a video ID whose every attempt returns HTTP 503
(max_retries = 3, base_delay = 1), the loop sleeps 1s and 2s only — the
claimed third delay of 4s never happens, because after the final failed
attempt the loop breaks without sleeping. -/
theorem c2_counterexample :
    (fetch_video_urls_with_backoff ["v1"]
        (fun _ _ => VResp.httpError 503 none) 3 1).sleeps = [1, 2]
    ∧ (fetch_video_urls_with_backoff ["v1"]
        (fun _ _ => VResp.httpError 503 none) 3 1).sleeps ≠ [1, 2, 4] :=
  ⟨rfl, by decide⟩

/-- C2 amended: for a video ID whose every lookup attempt returns HTTP 503
(max_retries = 3, base_delay = 1), exactly 3 request attempts are made, with
exponential-backoff delays `base * 2 ^ attempt` = 1s and 2s before the
second and third attempts (no delay after the final attempt), and the ID is
absent from the returned map. -/
theorem c2_retry_exhaustion (vid : String) :
    fetch_video_urls_with_backoff [vid] (fun _ _ => VResp.httpError 503 none) 3 1
      = { map := [], requests := [(vid, 0), (vid, 1), (vid, 2)], sleeps := [1, 2] } := rfl

/-! ### Paginated ad fetching (Step 1 of `get_data_script`) -/

/-- The outcome of one page request of the paginated fetcher: a parsed 200
body with its `data` records (record ids) and whether `paging.next` is
present, an HTTP error status, or another request exception. -/
inductive PResp where
  | ok (pageAds : List String) (hasNext : Bool)
  | httpError (status : Nat)
  | reqError
deriving DecidableEq, Repr

/-- The pagination loop's state: the page being fetched, the attempt number
on that page, the records accumulated so far, and the retry sleeps taken. -/
structure PState where
  page : Nat
  attempt : Nat
  ads : List String
  sleeps : List Nat
deriving DecidableEq, Repr

/-- One iteration of the `while url` loop: success appends the page's
records and advances (or finishes when `paging.next` is absent); an HTTP
error with status in {500, 502, 503, 504} sleeps the fixed 1s and retries
the same page; any other HTTP error breaks, keeping the records fetched so
far (`inr` with flag `true` = pagination aborted); any other request
exception also sleeps 1s and retries the same page. -/
def pstep (resp : PResp) (s : PState) : PState ⊕ (List String × Bool × List Nat) :=
  match resp with
  | .ok pageAds hasNext =>
      if hasNext then
        Sum.inl { page := s.page + 1, attempt := 0, ads := s.ads ++ pageAds,
                  sleeps := s.sleeps }
      else Sum.inr (s.ads ++ pageAds, false, s.sleeps)
  | .httpError status =>
      if status = 500 ∨ status = 502 ∨ status = 503 ∨ status = 504 then
        Sum.inl { page := s.page, attempt := s.attempt + 1, ads := s.ads,
                  sleeps := s.sleeps ++ [1] }
      else Sum.inr (s.ads, true, s.sleeps)
  | .reqError =>
      Sum.inl { page := s.page, attempt := s.attempt + 1, ads := s.ads,
                sleeps := s.sleeps ++ [1] }

/-- The `while url` pagination loop, driven by an oracle giving the response
to each (page, attempt) request; `fuel` bounds the number of requests
observed, and `none` means the loop was still running after `fuel` requests
(the source loop itself has no retry cap). -/
def fetchPages (oracle : Nat → Nat → PResp) :
    Nat → PState → Option (List String × Bool × List Nat)
  | 0, _ => none
  | fuel + 1, s =>
    match pstep (oracle s.page s.attempt) s with
    | Sum.inl s' => fetchPages oracle fuel s'
    | Sum.inr out => some out

/-- C5 counterexample: HTTP 501 is a 5xx status, yet the first 501 response
aborts pagination at once (aborted flag `true`, no retry request, no sleep)
— the code retries only the four statuses 500/502/503/504, so the claim
that "an HTTP 5xx response causes the same page to be retried" is false. -/
theorem c5_counterexample :
    fetchPages (fun _ _ => PResp.httpError 501) 5
        { page := 1, attempt := 0, ads := [], sleeps := [] }
      = some ([], true, []) := rfl

/-- C5 amended: an HTTP 500/502/503/504 response causes the same page to be
retried after a fixed 1s delay with no backoff growth and no retry cap (the
always-503 oracle keeps the loop running forever); any other HTTP error
status (including 501 and all 4xx) aborts pagination while keeping all
records already fetched; a non-HTTP request failure is retried with the
same fixed delay rather than aborting. -/
theorem c5_pagination_retry_abort :
    (∀ (s : PState) (status : Nat),
      (status = 500 ∨ status = 502 ∨ status = 503 ∨ status = 504) →
      pstep (PResp.httpError status) s
        = Sum.inl { page := s.page, attempt := s.attempt + 1, ads := s.ads,
                    sleeps := s.sleeps ++ [1] })
    ∧ (∀ (s : PState) (status : Nat),
      ¬(status = 500 ∨ status = 502 ∨ status = 503 ∨ status = 504) →
      pstep (PResp.httpError status) s = Sum.inr (s.ads, true, s.sleeps))
    ∧ (∀ s : PState, pstep PResp.reqError s
        = Sum.inl { page := s.page, attempt := s.attempt + 1, ads := s.ads,
                    sleeps := s.sleeps ++ [1] })
    ∧ (∀ (fuel : Nat) (s : PState),
      fetchPages (fun _ _ => PResp.httpError 503) fuel s = none) := by
  refine ⟨?_, ?_, ?_, ?_⟩
  · intro s status hst
    simp [pstep, hst]
  · intro s status hst
    simp [pstep, hst]
  · intro s
    rfl
  · intro fuel
    induction fuel with
    | zero => intro s; rfl
    | succ fuel ih =>
      intro s
      have hretry : (503 : Nat) = 500 ∨ (503 : Nat) = 502 ∨ (503 : Nat) = 503
          ∨ (503 : Nat) = 504 := by decide
      simp only [fetchPages, pstep, if_pos hretry]
      exact ih _

/-- Witness for C5 at concrete inputs: a 503 on page 1 with one record
already fetched retries the same page after a 1s sleep; a 404 on page 2
aborts, keeping the record. -/
theorem c5_pagination_retry_abort_witness :
    (pstep (PResp.httpError 503) { page := 1, attempt := 0, ads := ["a"], sleeps := [] }
      = Sum.inl { page := 1, attempt := 1, ads := ["a"], sleeps := [1] })
    ∧ (pstep (PResp.httpError 404) { page := 2, attempt := 0, ads := ["a"], sleeps := [] }
      = Sum.inr (["a"], true, [])) :=
  ⟨c5_pagination_retry_abort.1 _ 503 (by decide),
   c5_pagination_retry_abort.2.1 _ 404 (by decide)⟩

/-! ### Media materialization (`download_media`) -/

/-- Whether `t` occurs as a substring of `s` (Python `t in s` for a
non-empty `t`). -/
def hasSubstr (s t : String) : Bool := decide ((s.splitOn t).length > 1)

/-- `urllib.parse.urlparse(url).path` for http(s)-style URLs: the part after
scheme and host, with query and fragment stripped. -/
def urlPath (url : String) : String :=
  match ((url.splitOn "#").headD "" |>.splitOn "?").headD "" |>.splitOn "://" with
  | [] => ""
  | [p] => p
  | _ :: rest =>
    match (String.intercalate "://" rest).splitOn "/" with
    | [] => ""
    | [_] => ""
    | _ :: pathParts => "/" ++ String.intercalate "/" pathParts

/-- `os.path.splitext(p)[1]`: the extension of the last path component —
the suffix from its last dot, unless every character before that dot is
itself a dot (leading dots never start an extension). -/
def splitextExt (path : String) : String :=
  match (path.splitOn "/").getLast? with
  | none => ""
  | some base =>
    match (base.toList.dropWhile (· = '.')) with
    | rest =>
      if rest.contains '.' then
        String.mk ('.' :: (rest.reverse.takeWhile (· ≠ '.')).reverse)
      else ""

/-- The outcome of the streamed GET of a media URL (`err` covers timeout,
HTTP error and filesystem failure; the chunked write is modelled as
atomic). -/
inductive DlResult where
  | ok
  | err
deriving DecidableEq, Repr

/-- The local media directory, as the set of file paths present. -/
structure MediaFS where
  files : List String
deriving DecidableEq, Repr

/-- The deterministic filename of `download_media`:
`prefix + ad_id + "_" + identifier + ext`, with the extension taken from
the URL path's suffix, else inferred from the video/mp4/mov markers in the
URL, defaulting to `.jpg`. -/
def mediaFilename (pfx ad_id identifier url : String) : String :=
  pfx ++ ad_id ++ "_" ++ identifier ++
    (if splitextExt (urlPath url) = "" then
      (if hasSubstr url "video" || hasSubstr url "mp4" || hasSubstr url "mov" then ".mp4"
       else ".jpg")
     else splitextExt (urlPath url))

/-- `download_media` from `get_data.py` (the unused `media_type` parameter
is dropped; `pfx` stands for the source's keyword parameter naming the
filename's leading tag): returns the local path (or `none` on failure), the
updated directory contents, and the number of network downloads issued. -/
def download_media (net : String → DlResult) (fs : MediaFS)
    (url media_dir ad_id identifier pfx : String) :
    Option String × MediaFS × Nat :=
  if url = "" then (none, fs, 0)
  else if media_dir ++ "/" ++ mediaFilename pfx ad_id identifier url ∈ fs.files then
    (some (media_dir ++ "/" ++ mediaFilename pfx ad_id identifier url), fs, 0)
  else
    match net url with
    | .ok => (some (media_dir ++ "/" ++ mediaFilename pfx ad_id identifier url),
              { files := (media_dir ++ "/" ++ mediaFilename pfx ad_id identifier url)
                  :: fs.files }, 1)
    | .err => (none, fs, 1)

/-- C6: the filename is the deterministic function `mediaFilename` of
(prefix, owning-record id, reference id, extension-bearing URL); when the
file is absent and the download succeeds, the first call downloads once and
records the file, and a second call with the same arguments returns the
same existing path with zero network requests and an unchanged directory. -/
theorem c6_download_idempotent (net : String → DlResult) (fs : MediaFS)
    (url media_dir ad_id identifier pfx : String)
    (hurl : url ≠ "")
    (hnew : media_dir ++ "/" ++ mediaFilename pfx ad_id identifier url ∉ fs.files)
    (hok : net url = DlResult.ok) :
    download_media net fs url media_dir ad_id identifier pfx
      = (some (media_dir ++ "/" ++ mediaFilename pfx ad_id identifier url),
         { files := (media_dir ++ "/" ++ mediaFilename pfx ad_id identifier url)
             :: fs.files }, 1)
    ∧ download_media net
        { files := (media_dir ++ "/" ++ mediaFilename pfx ad_id identifier url)
            :: fs.files }
        url media_dir ad_id identifier pfx
      = (some (media_dir ++ "/" ++ mediaFilename pfx ad_id identifier url),
         { files := (media_dir ++ "/" ++ mediaFilename pfx ad_id identifier url)
             :: fs.files }, 0) := by
  constructor
  · simp only [download_media, if_neg hurl, if_neg hnew, hok]
  · simp only [download_media, if_neg hurl]
    rw [if_pos (List.mem_cons_self _ _)]

/-- Witness for C6 at a concrete input: downloading one image URL into an
empty directory, then calling again; one download total, both calls return
the same deterministic path. -/
theorem c6_download_idempotent_witness :
    (download_media (fun _ => DlResult.ok) { files := [] }
        "http://cdn/a.jpg" "data/media" "ad1" "hashX" "img_"
      = (some ("data/media" ++ "/" ++ mediaFilename "img_" "ad1" "hashX" "http://cdn/a.jpg"),
         { files := ("data/media" ++ "/"
             ++ mediaFilename "img_" "ad1" "hashX" "http://cdn/a.jpg") :: [] }, 1))
    ∧ (download_media (fun _ => DlResult.ok)
        { files := ("data/media" ++ "/"
            ++ mediaFilename "img_" "ad1" "hashX" "http://cdn/a.jpg") :: [] }
        "http://cdn/a.jpg" "data/media" "ad1" "hashX" "img_"
      = (some ("data/media" ++ "/" ++ mediaFilename "img_" "ad1" "hashX" "http://cdn/a.jpg"),
         { files := ("data/media" ++ "/"
             ++ mediaFilename "img_" "ad1" "hashX" "http://cdn/a.jpg") :: [] }, 0)) :=
  c6_download_idempotent (fun _ => DlResult.ok) { files := [] }
    "http://cdn/a.jpg" "data/media" "ad1" "hashX" "img_"
    (by decide) (by decide) rfl

/-! ### Hierarchy builder (Step 4.5 of `get_data_script`) -/

/-- The `campaign` sub-object fetched with each ad. -/
structure CampaignInfo where
  id : Option String
  name : Option String
  objective : Option String
  status : Option String
  start_time : Option String
  stop_time : Option String
  daily_budget : Option String
deriving DecidableEq, Repr

/-- The `adset` sub-object fetched with each ad (`targeting` kept opaque). -/
structure AdsetInfo where
  id : Option String
  name : Option String
  optimization_goal : Option String
  status : Option String
  daily_budget : Option String
  targeting : Option String
deriving DecidableEq, Repr

/-- A flat ad record, with the fields the hierarchy builder reads. -/
structure AdRec where
  id : Option String
  campaign : Option CampaignInfo
  adset : Option AdsetInfo
deriving DecidableEq, Repr

/-- Truthy identifier: `None` and `""` are both rejected by
`if not campaign_id or not adset_id`. -/
def tid : Option String → Option String
  | some s => if s = "" then none else some s
  | none => none

/-- The ad's campaign id, as tested by the builder. -/
def campId (ad : AdRec) : Option String := tid (ad.campaign.bind (·.id))

/-- The ad's adset id, as tested by the builder. -/
def adsetId (ad : AdRec) : Option String := tid (ad.adset.bind (·.id))

/-- An adset node of the hierarchy. -/
structure AdsetNode where
  id : String
  name : String
  optimization_goal : String
  status : String
  daily_budget : String
  targeting : Option String
  ads : List AdRec
deriving DecidableEq, Repr

/-- A campaign node of the hierarchy. -/
structure CampNode where
  id : String
  name : String
  objective : String
  status : String
  start_time : String
  stop_time : String
  daily_budget : String
  adsets : List (String × AdsetNode)
deriving DecidableEq, Repr

/-- Append `(k, v)` when `k` is absent (dict lazy creation, preserving
insertion order). -/
def aensure {α : Type} (l : List (String × α)) (k : String) (v : α) : List (String × α) :=
  match alookup l k with
  | some _ => l
  | none => l ++ [(k, v)]

/-- Modify the value at an existing key in place. -/
def aupdate {α : Type} : List (String × α) → String → (α → α) → List (String × α)
  | [], _, _ => []
  | (k', v') :: rest, k, f =>
      if k' = k then (k', f v') :: rest else (k', v') :: aupdate rest k f

/-- The campaign node created on first encounter of `cid`, with descriptive
fields copied from this ad (`.get(..., "")` defaults). -/
def newCampNode (cid : String) (ad : AdRec) : CampNode :=
  { id := cid
    name := (ad.campaign.bind (·.name)).getD ""
    objective := (ad.campaign.bind (·.objective)).getD ""
    status := (ad.campaign.bind (·.status)).getD ""
    start_time := (ad.campaign.bind (·.start_time)).getD ""
    stop_time := (ad.campaign.bind (·.stop_time)).getD ""
    daily_budget := (ad.campaign.bind (·.daily_budget)).getD ""
    adsets := [] }

/-- The adset node created on first encounter of `aid`. -/
def newAdsetNode (aid : String) (ad : AdRec) : AdsetNode :=
  { id := aid
    name := (ad.adset.bind (·.name)).getD ""
    optimization_goal := (ad.adset.bind (·.optimization_goal)).getD ""
    status := (ad.adset.bind (·.status)).getD ""
    daily_budget := (ad.adset.bind (·.daily_budget)).getD ""
    targeting := ad.adset.bind (·.targeting)
    ads := [] }

/-- Append a record to an adset node's list. -/
def pushAd (ad : AdRec) (s : AdsetNode) : AdsetNode :=
  { s with ads := s.ads ++ [ad] }

/-- What one both-ids-present record does inside its campaign node: lazily
create the adset node, then append the record to its `ads` list. -/
def updCamp (c : CampNode) (aid : String) (ad : AdRec) : CampNode :=
  { c with adsets := aupdate (aensure c.adsets aid (newAdsetNode aid ad)) aid (pushAd ad) }

/-- One iteration of the hierarchy loop: skip the record unless both ids
are truthy; otherwise lazily create the campaign node and delegate to
`updCamp`. -/
def hstep (h : List (String × CampNode)) (ad : AdRec) : List (String × CampNode) :=
  match campId ad, adsetId ad with
  | some cid, some aid =>
      aupdate (aensure h cid (newCampNode cid ad)) cid (fun c => updCamp c aid ad)
  | _, _ => h

/-- The Step 4.5 loop of `get_data_script`. -/
def buildHierarchy (ads : List AdRec) : List (String × CampNode) :=
  ads.foldl hstep []

/-- The record list of subgroup `aid` of group `cid` (empty when either
node is absent). -/
def adsOf (h : List (String × CampNode)) (cid aid : String) : List AdRec :=
  match alookup h cid with
  | none => []
  | some c =>
    match alookup c.adsets aid with
    | none => []
    | some s => s.ads

/-- Whether a record belongs to slot (`cid`, `aid`): both its identifiers
are present (truthy) and match. -/
def inSlot (cid aid : String) (ad : AdRec) : Bool :=
  decide (campId ad = some cid) && decide (adsetId ad = some aid)

/-- The descriptive fields of a campaign node (everything but `adsets`). -/
def campDescr (c : CampNode) :
    String × String × String × String × String × String × String :=
  (c.id, c.name, c.objective, c.status, c.start_time, c.stop_time, c.daily_budget)

/-- The descriptive fields of an adset node (everything but `ads`). -/
def adsetDescr (s : AdsetNode) :
    String × String × String × String × String × Option String :=
  (s.id, s.name, s.optimization_goal, s.status, s.daily_budget, s.targeting)

/-- The descriptive fields of subgroup `aid` of group `cid`, when present. -/
def adsetDescrOf (h : List (String × CampNode)) (cid aid : String) :
    Option (String × String × String × String × String × Option String) :=
  match alookup h cid with
  | none => none
  | some c => (alookup c.adsets aid).map adsetDescr

/-- Whether a record is the kind that creates/feeds group `cid`: its
campaign id matches and its adset id is truthy. -/
def campFeeds (cid : String) (ad : AdRec) : Bool :=
  decide (campId ad = some cid) && (adsetId ad).isSome

lemma alookup_append {α : Type} (l₁ l₂ : List (String × α)) (key : String) :
    alookup (l₁ ++ l₂) key =
      match alookup l₁ key with
      | some v => some v
      | none => alookup l₂ key := by
  induction l₁ with
  | nil => rfl
  | cons q rest ih =>
    obtain ⟨k', v'⟩ := q
    by_cases h : k' = key
    · simp [alookup, h]
    · simp [alookup, h, ih]

lemma alookup_aupdate {α : Type} (l : List (String × α)) (k : String) (f : α → α)
    (key : String) :
    alookup (aupdate l k f) key =
      if key = k then (alookup l k).map f else alookup l key := by
  induction l with
  | nil => by_cases h : key = k <;> simp [aupdate, alookup, h]
  | cons q rest ih =>
    obtain ⟨k', v'⟩ := q
    by_cases h1 : k' = k
    · subst h1
      by_cases h2 : k' = key
      · simp [aupdate, alookup, h2]
      · simp [aupdate, alookup, h2, Ne.symm h2]
    · by_cases h2 : k' = key
      · have h3 : ¬key = k := fun hh => h1 (h2.trans hh)
        simp [aupdate, alookup, h1, h2, h3]
      · simp [aupdate, alookup, h1, h2, ih]

lemma alookup_aensure {α : Type} (l : List (String × α)) (k : String) (v : α)
    (key : String) :
    alookup (aensure l k v) key =
      if key = k then some ((alookup l k).getD v) else alookup l key := by
  unfold aensure
  cases hk : alookup l k with
  | some w =>
    by_cases h : key = k
    · subst h
      simp [hk]
    · simp [h]
  | none =>
    rw [alookup_append]
    by_cases h : key = k
    · subst h
      simp [hk, alookup]
    · cases hkey : alookup l key with
      | some w => simp [h, hkey]
      | none => simp [h, hkey, alookup, Ne.symm h]

lemma alookup_hstep (h : List (String × CampNode)) (ad : AdRec) (cid : String) :
    alookup (hstep h ad) cid =
      match campId ad, adsetId ad with
      | some cid', some aid' =>
        if cid = cid' then
          some (updCamp ((alookup h cid').getD (newCampNode cid' ad)) aid' ad)
        else alookup h cid
      | _, _ => alookup h cid := by
  cases hc : campId ad with
  | none =>
    cases ha : adsetId ad <;> simp [hstep, hc, ha]
  | some cid' =>
    cases ha : adsetId ad with
    | none => simp [hstep, hc, ha]
    | some aid' =>
      simp only [hstep, hc, ha, alookup_aupdate, alookup_aensure]
      by_cases hcid : cid = cid'
      · subst hcid
        simp
      · simp [hcid]

lemma campDescr_updCamp (c : CampNode) (aid : String) (ad : AdRec) :
    campDescr (updCamp c aid ad) = campDescr c := rfl

lemma adsetDescr_pushAd (ad : AdRec) (s : AdsetNode) :
    adsetDescr (pushAd ad s) = adsetDescr s := rfl

lemma adsOf_hstep (h : List (String × CampNode)) (ad : AdRec) (cid aid : String) :
    adsOf (hstep h ad) cid aid
      = adsOf h cid aid ++ (if inSlot cid aid ad then [ad] else []) := by
  have hl := alookup_hstep h ad cid
  cases hc : campId ad with
  | none =>
    rw [hc] at hl
    cases ha : adsetId ad <;>
      simp [adsOf, hl, inSlot, hc]
  | some cid' =>
    cases ha : adsetId ad with
    | none =>
      rw [hc, ha] at hl
      simp [adsOf, hl, inSlot, hc, ha]
    | some aid' =>
      rw [hc, ha] at hl
      dsimp only at hl
      by_cases hcid : cid = cid'
      · subst hcid
        rw [if_pos rfl] at hl
        have hins : inSlot cid aid ad = (decide (aid = aid')) := by
          simp [inSlot, hc, ha, eq_comm]
        unfold adsOf
        rw [hl]
        dsimp only
        simp only [updCamp, alookup_aupdate, alookup_aensure]
        by_cases haid : aid = aid'
        · subst haid
          cases hcl : alookup h cid with
          | none => simp [hcl, hins, newCampNode, alookup, newAdsetNode, pushAd]
          | some c =>
            cases hsl : alookup c.adsets aid with
            | none => simp [hcl, hsl, hins, newAdsetNode, pushAd]
            | some s => simp [hcl, hsl, hins, pushAd]
        · cases hcl : alookup h cid with
          | none => simp [hcl, hins, haid, newCampNode, alookup]
          | some c => simp [hcl, hins, haid]
      · rw [if_neg hcid] at hl
        have hins : inSlot cid aid ad = false := by
          simp [inSlot, hc]
          intro hcc
          exact absurd hcc.symm hcid
        unfold adsOf
        rw [hl, hins]
        simp

lemma campDescrOf_hstep (h : List (String × CampNode)) (ad : AdRec) (cid : String) :
    (alookup (hstep h ad) cid).map campDescr
      = match (alookup h cid).map campDescr with
        | some d => some d
        | none =>
          if campFeeds cid ad then some (campDescr (newCampNode cid ad)) else none := by
  have hl := alookup_hstep h ad cid
  cases hc : campId ad with
  | none =>
    rw [hc] at hl
    dsimp only at hl
    have hfeeds : campFeeds cid ad = false := by simp [campFeeds, hc]
    rw [hl]
    cases hx : alookup h cid <;> simp [hfeeds]
  | some cid' =>
    cases ha : adsetId ad with
    | none =>
      rw [hc, ha] at hl
      dsimp only at hl
      have hfeeds : campFeeds cid ad = false := by simp [campFeeds, ha]
      rw [hl]
      cases hx : alookup h cid <;> simp [hfeeds]
    | some aid' =>
      rw [hc, ha] at hl
      dsimp only at hl
      by_cases hcid : cid = cid'
      · subst hcid
        rw [if_pos rfl] at hl
        have hfeeds : campFeeds cid ad = true := by simp [campFeeds, hc, ha]
        rw [hl]
        cases hx : alookup h cid with
        | none => simp [hx, hfeeds, campDescr_updCamp]
        | some c => simp [hx, campDescr_updCamp]
      · rw [if_neg hcid] at hl
        have hne : ¬(cid' = cid) := fun hh => hcid hh.symm
        have hfeeds : campFeeds cid ad = false := by simp [campFeeds, hc, hne]
        rw [hl]
        cases hx : alookup h cid <;> simp [hfeeds]

lemma adsetDescrOf_hstep (h : List (String × CampNode)) (ad : AdRec) (cid aid : String) :
    adsetDescrOf (hstep h ad) cid aid
      = match adsetDescrOf h cid aid with
        | some d => some d
        | none =>
          if inSlot cid aid ad then some (adsetDescr (newAdsetNode aid ad)) else none := by
  have hl := alookup_hstep h ad cid
  cases hc : campId ad with
  | none =>
    rw [hc] at hl
    dsimp only at hl
    have hins : inSlot cid aid ad = false := by simp [inSlot, hc]
    unfold adsetDescrOf
    rw [hl]
    cases hx : alookup h cid with
    | none => simp [hins]
    | some c => cases hy : alookup c.adsets aid <;> simp [hy, hins]
  | some cid' =>
    cases ha : adsetId ad with
    | none =>
      rw [hc, ha] at hl
      dsimp only at hl
      have hins : inSlot cid aid ad = false := by simp [inSlot, ha]
      unfold adsetDescrOf
      rw [hl]
      cases hx : alookup h cid with
      | none => simp [hins]
      | some c => cases hy : alookup c.adsets aid <;> simp [hy, hins]
    | some aid' =>
      rw [hc, ha] at hl
      dsimp only at hl
      by_cases hcid : cid = cid'
      · subst hcid
        rw [if_pos rfl] at hl
        unfold adsetDescrOf
        rw [hl]
        dsimp only
        simp only [updCamp, alookup_aupdate, alookup_aensure]
        have hins : inSlot cid aid ad = decide (aid = aid') := by
          simp [inSlot, hc, ha, eq_comm]
        by_cases haid : aid = aid'
        · subst haid
          cases hx : alookup h cid with
          | none =>
            simp [hx, hins, newCampNode, alookup, newAdsetNode, adsetDescr_pushAd]
          | some c =>
            cases hy : alookup c.adsets aid with
            | none => simp [hx, hy, hins, newAdsetNode, adsetDescr_pushAd]
            | some s => simp [hx, hy, hins, adsetDescr_pushAd]
        · cases hx : alookup h cid with
          | none => simp [hx, hins, haid, newCampNode, alookup]
          | some c => cases hy : alookup c.adsets aid <;> simp [hx, hy, hins, haid]
      · rw [if_neg hcid] at hl
        have hne : ¬(cid' = cid) := fun hh => hcid hh.symm
        have hins : inSlot cid aid ad = false := by simp [inSlot, hc, hne]
        unfold adsetDescrOf
        rw [hl]
        cases hx : alookup h cid with
        | none => simp [hins]
        | some c => cases hy : alookup c.adsets aid <;> simp [hy, hins]

lemma adsOf_foldl (cid aid : String) :
    ∀ (ads : List AdRec) (h : List (String × CampNode)),
      adsOf (ads.foldl hstep h) cid aid
        = adsOf h cid aid ++ ads.filter (inSlot cid aid) := by
  intro ads
  induction ads with
  | nil => intro h; simp
  | cons ad rest ih =>
    intro h
    rw [List.foldl_cons, ih, adsOf_hstep, List.filter_cons]
    cases hins : inSlot cid aid ad <;> simp [hins]

lemma campDescrOf_foldl (cid : String) :
    ∀ (ads : List AdRec) (h : List (String × CampNode)),
      (alookup (ads.foldl hstep h) cid).map campDescr
        = match (alookup h cid).map campDescr with
          | some d => some d
          | none => ((ads.filter (campFeeds cid)).head?).map
              (fun ad => campDescr (newCampNode cid ad)) := by
  intro ads
  induction ads with
  | nil =>
    intro h
    cases hx : (alookup h cid).map campDescr <;> simp [hx]
  | cons ad rest ih =>
    intro h
    rw [List.foldl_cons, ih, campDescrOf_hstep, List.filter_cons]
    cases hx : (alookup h cid).map campDescr with
    | some d => simp
    | none => cases hfeeds : campFeeds cid ad <;> simp [hfeeds]

lemma adsetDescrOf_foldl (cid aid : String) :
    ∀ (ads : List AdRec) (h : List (String × CampNode)),
      adsetDescrOf (ads.foldl hstep h) cid aid
        = match adsetDescrOf h cid aid with
          | some d => some d
          | none => ((ads.filter (inSlot cid aid)).head?).map
              (fun ad => adsetDescr (newAdsetNode aid ad)) := by
  intro ads
  induction ads with
  | nil =>
    intro h
    cases hx : adsetDescrOf h cid aid <;> simp [hx]
  | cons ad rest ih =>
    intro h
    rw [List.foldl_cons, ih, adsetDescrOf_hstep, List.filter_cons]
    cases hx : adsetDescrOf h cid aid with
    | some d => simp
    | none => cases hins : inSlot cid aid ad <;> simp [hins]

/-- The campaign sub-object of the C8 example records, group "A". -/
def exCampaignA : CampaignInfo :=
  { id := some "A", name := none, objective := none, status := none,
    start_time := none, stop_time := none, daily_budget := none }

/-- The adset sub-object of the C8 example records, subgroup "A1". -/
def exAdsetA1 : AdsetInfo :=
  { id := some "A1", name := none, optimization_goal := none, status := none,
    daily_budget := none, targeting := none }

/-- The adset sub-object of the C8 example records, subgroup "A2". -/
def exAdsetA2 : AdsetInfo :=
  { id := some "A2", name := none, optimization_goal := none, status := none,
    daily_budget := none, targeting := none }

/-- Example record 1: group "A", subgroup "A1". -/
def exAd1 : AdRec := { id := some "1", campaign := some exCampaignA, adset := some exAdsetA1 }

/-- Example record 2: group "A", subgroup "A1". -/
def exAd2 : AdRec := { id := some "2", campaign := some exCampaignA, adset := some exAdsetA1 }

/-- Example record 3: group "A", subgroup "A2". -/
def exAd3 : AdRec := { id := some "3", campaign := some exCampaignA, adset := some exAdsetA2 }

/-- Example record 4: no group identifier, subgroup "A1". -/
def exAd4 : AdRec := { id := some "4", campaign := none, adset := some exAdsetA1 }

/-- The C8 example record sequence. -/
def exAds : List AdRec := [exAd1, exAd2, exAd3, exAd4]

/-- C8: the Hierarchy Builder's subgroup record lists are exactly the
input-order filters of the records whose two identifiers are present and
match (hence excluded records appear in no subgroup and order is kept);
group and subgroup descriptive fields are first-writer-wins, taken from the
first matching record; and on the example records the hierarchy is exactly
one group "A" with subgroup "A1" holding records 1 and 2 in order and
subgroup "A2" holding record 3, with record 4 in no subgroup. -/
theorem c8_hierarchy_grouping :
    (∀ (ads : List AdRec) (cid aid : String),
      adsOf (buildHierarchy ads) cid aid = ads.filter (inSlot cid aid))
    ∧ (∀ (ads : List AdRec) (cid : String),
      (alookup (buildHierarchy ads) cid).map campDescr
        = ((ads.filter (campFeeds cid)).head?).map
            (fun ad => campDescr (newCampNode cid ad)))
    ∧ (∀ (ads : List AdRec) (cid aid : String),
      adsetDescrOf (buildHierarchy ads) cid aid
        = ((ads.filter (inSlot cid aid)).head?).map
            (fun ad => adsetDescr (newAdsetNode aid ad)))
    ∧ (buildHierarchy exAds).map Prod.fst = ["A"]
    ∧ (alookup (buildHierarchy exAds) "A").map (fun c => c.adsets.map Prod.fst)
        = some ["A1", "A2"]
    ∧ adsOf (buildHierarchy exAds) "A" "A1" = [exAd1, exAd2]
    ∧ adsOf (buildHierarchy exAds) "A" "A2" = [exAd3]
    ∧ (∀ cid aid : String,
        List.elem exAd4 (adsOf (buildHierarchy exAds) cid aid) = false) := by
  have hads : ∀ (ads : List AdRec) (cid aid : String),
      adsOf (buildHierarchy ads) cid aid = ads.filter (inSlot cid aid) := by
    intro ads cid aid
    have h := adsOf_foldl cid aid ads []
    simpa [buildHierarchy, adsOf, alookup] using h
  refine ⟨hads, ?_, ?_, by decide, by decide, by decide, by decide, ?_⟩
  · intro ads cid
    have h := campDescrOf_foldl cid ads []
    simpa [buildHierarchy, alookup] using h
  · intro ads cid aid
    have h := adsetDescrOf_foldl cid aid ads []
    simpa [buildHierarchy, adsetDescrOf, alookup] using h
  · intro cid aid
    rw [hads exAds cid aid]
    cases helem : List.elem exAd4 (exAds.filter (inSlot cid aid)) with
    | false => rfl
    | true =>
      exfalso
      have hmem := List.mem_of_elem_eq_true helem
      have hfil := List.mem_filter.mp hmem
      have hslot := hfil.2
      simp [inSlot, campId, exAd4, tid] at hslot

/-! ### Flattening of insight metrics (Step 6 of `get_data_script`) -/

/-- A JSON scalar as handled by the flattener: a string, an integer, or a
float (floats modelled by rationals — none of the verified properties
depend on binary rounding). -/
inductive PyVal where
  | s (v : String)
  | i (n : ℤ)
  | f (q : ℚ)
deriving DecidableEq, Repr

/-- The digits of a decimal numeral, or `none` if any character is not a
digit. -/
def digitVals (cs : List Char) : Option Nat :=
  cs.foldl
    (fun acc c =>
      match acc with
      | none => none
      | some n => if c.isDigit then some (n * 10 + (c.toNat - 48)) else none)
    (some 0)

/-- A non-empty all-digit numeral. -/
def parseNatDigits (cs : List Char) : Option Nat :=
  if cs.isEmpty then none else digitVals cs

/-- The unsigned part of a Python decimal float literal: `digits`,
`digits.digits`, `digits.` or `.digits`. -/
def parseFloatDigits (cs : List Char) : Option ℚ :=
  match cs.drop (cs.takeWhile (· ≠ '.')).length with
  | [] => (parseNatDigits cs).map (fun n => (n : ℚ))
  | _ :: fracPart =>
    if (cs.takeWhile (· ≠ '.')).isEmpty && fracPart.isEmpty then none
    else
      match (if (cs.takeWhile (· ≠ '.')).isEmpty then some 0
             else digitVals (cs.takeWhile (· ≠ '.'))),
            (if fracPart.isEmpty then some 0 else digitVals fracPart) with
      | some ip, some fp =>
        some ((ip : ℚ) + (fp : ℚ) / (10 : ℚ) ^ fracPart.length)
      | _, _ => none

/-- Python `float(s)` on a plain decimal literal with optional sign;
`none` models the `ValueError` raised on anything else. -/
def pyParseFloat (s : String) : Option ℚ :=
  match s.toList with
  | '-' :: rest => (parseFloatDigits rest).map (fun q => -q)
  | '+' :: rest => parseFloatDigits rest
  | cs => parseFloatDigits cs

/-- Python `int(s)` on a plain decimal integer literal with optional sign;
`none` models the `ValueError` raised on anything else (including float
literals such as "4.5"). -/
def pyParseInt (s : String) : Option ℤ :=
  match s.toList with
  | '-' :: rest => (parseNatDigits rest).map (fun n => -(n : ℤ))
  | '+' :: rest => (parseNatDigits rest).map (fun n => (n : ℤ))
  | cs => (parseNatDigits cs).map (fun n => (n : ℤ))

/-- Python `float(x)`. -/
def pyFloat : PyVal → Option ℚ
  | .s v => pyParseFloat v
  | .i n => some (n : ℚ)
  | .f q => some q

/-- Python `int(x)` (floats truncate toward zero). -/
def pyInt : PyVal → Option ℤ
  | .s v => pyParseInt v
  | .i n => some n
  | .f q => some (if 0 ≤ q then ⌊q⌋ else ⌈q⌉)

/-- Python truthiness of a scalar. -/
def pyTruthy : PyVal → Bool
  | .s v => v ≠ ""
  | .i n => n ≠ 0
  | .f q => q ≠ 0

/-- An item of the `actions` insight list. -/
structure ActionItem where
  action_type : Option String
  value : Option PyVal
deriving DecidableEq, Repr

/-- An item of a list-shaped `purchase_roas` field. -/
structure RoasItem where
  value : Option PyVal
deriving DecidableEq, Repr

/-- The shape of the `purchase_roas` field: a list of items, a bare number
(`isinstance(roas_field, (int, float))`), or anything else (both
`isinstance` checks fail and the value is ignored). -/
inductive RoasField where
  | lst (items : List RoasItem)
  | num (q : ℚ)
  | other
deriving DecidableEq, Repr

/-- One ad's insights record, with the fields the flattener reads. -/
structure Insights where
  spend : Option PyVal
  impressions : Option PyVal
  clicks : Option PyVal
  ctr : Option PyVal
  cpc : Option PyVal
  cpm : Option PyVal
  actions : Option (List ActionItem)
  purchase_roas : Option RoasField
deriving DecidableEq, Repr

/-- The action types counted as conversions. -/
def convTypes : List String :=
  ["offsite_conversion", "purchase", "onsite_conversion.purchase"]

/-- Whether an action item's `action_type` is a conversion type. -/
def actionCounts (a : ActionItem) : Bool :=
  match a.action_type with
  | some t => decide (t ∈ convTypes)
  | none => false

/-- `sum(int(a.get("value", 0)) for a in actions if ...)`: `int()` is not
wrapped, so a non-numeric value of a counted action raises (`none`). -/
def sumConversions : List ActionItem → Option ℤ
  | [] => some 0
  | a :: rest =>
    if actionCounts a then
      match pyInt (a.value.getD (.i 0)), sumConversions rest with
      | some n, some m => some (n + m)
      | _, _ => none
    else sumConversions rest

/-- The `purchase_roas` extraction: first item's truthy `value` coerced with
`float(...)` guarded by `except (ValueError, TypeError)` (default 0.0), a
bare number taken as is, anything else 0.0. -/
def roasOf : Option RoasField → ℚ
  | some (.lst (first :: _)) =>
    match first.value with
    | some v => if pyTruthy v then (pyFloat v).getD 0 else 0
    | none => 0
  | some (.lst []) => 0
  | some (.num q) => q
  | some .other => 0
  | none => 0

/-- One flattened row's numeric metric fields. -/
structure FlatMetrics where
  spend : ℚ
  impressions : ℤ
  clicks : ℤ
  ctr : ℚ
  cpc : ℚ
  cpm : ℚ
  roas : ℚ
  conversions : ℤ
  conversion_rate : ℚ
deriving DecidableEq, Repr

/-- The numeric part of the Step 6 flattening of one ad: `spend`,
`impressions`, `clicks` and the counted action values are coerced with bare
`float()`/`int()` (absent fields default to 0, but a non-numeric value
raises, modelled by `none`); `ctr`, `cpc`, `cpm` fall back to 0.0 on
`ValueError`; `purchase_roas` is guarded; `conversion_rate` is
`conversions / clicks * 100` only when `clicks > 0`. -/
def flattenInsights (ins : Insights) : Option FlatMetrics :=
  match pyFloat (ins.spend.getD (.i 0)), pyInt (ins.impressions.getD (.i 0)),
      pyInt (ins.clicks.getD (.i 0)), sumConversions (ins.actions.getD []) with
  | some spend, some impressions, some clicks, some conversions =>
    some { spend := spend
           impressions := impressions
           clicks := clicks
           ctr := (pyFloat (ins.ctr.getD (.s "0"))).getD 0
           cpc := (pyFloat (ins.cpc.getD (.s "0"))).getD 0
           cpm := (pyFloat (ins.cpm.getD (.s "0"))).getD 0
           roas := roasOf ins.purchase_roas
           conversions := conversions
           conversion_rate :=
             if 0 < clicks then (conversions : ℚ) / (clicks : ℚ) * 100 else 0 }
  | _, _, _, _ => none

/-- An insights record whose `spend` is the non-numeric string "bad". -/
def insSpendBad : Insights :=
  { spend := some (.s "bad"), impressions := none, clicks := none, ctr := none,
    cpc := none, cpm := none, actions := none, purchase_roas := none }

/-- An insights record with `ctr = "bad"` and `clicks = 0`, the spec's own
example inputs. -/
def insCtrBad : Insights :=
  { spend := none, impressions := none, clicks := some (.i 0),
    ctr := some (.s "bad"), cpc := none, cpm := none, actions := none,
    purchase_roas := none }

/-- C9 counterexample: a record with `spend = "bad"` makes the flattener
raise (`float(ins.get("spend", 0))` is not wrapped in try/except), so it is
not the case that every numeric insight field is coerced with a safe
default and the flattener never raises. -/
theorem c9_counterexample : flattenInsights insSpendBad = none := rfl

/-- C9 amended: `ctr`, `cpc`, `cpm` and `roas` are coerced with safe
defaults (non-numeric or absent becomes 0.0 without raising), while
`spend`, `impressions`, `clicks` and counted action values default to 0
when absent but raise on non-numeric values; whenever those unguarded
fields are numeric the flattener succeeds, with
`conversion_rate = conversions / clicks * 100` when `clicks > 0` and `0.0`
when `clicks = 0`; in particular the record with `ctr = "bad"` flattens to
`ctr = 0.0` and the record with `clicks = 0` to `conversion_rate = 0.0`. -/
theorem c9_numeric_coercion :
    (∀ ins : Insights,
      (pyFloat (ins.spend.getD (PyVal.i 0))).isSome →
      (pyInt (ins.impressions.getD (PyVal.i 0))).isSome →
      (pyInt (ins.clicks.getD (PyVal.i 0))).isSome →
      (sumConversions (ins.actions.getD [])).isSome →
      ∃ v, flattenInsights ins = some v
        ∧ v.ctr = (pyFloat (ins.ctr.getD (PyVal.s "0"))).getD 0
        ∧ v.cpc = (pyFloat (ins.cpc.getD (PyVal.s "0"))).getD 0
        ∧ v.cpm = (pyFloat (ins.cpm.getD (PyVal.s "0"))).getD 0
        ∧ v.roas = roasOf ins.purchase_roas
        ∧ v.conversion_rate
            = (if 0 < v.clicks then (v.conversions : ℚ) / (v.clicks : ℚ) * 100 else 0))
    ∧ flattenInsights insCtrBad
        = some { spend := 0, impressions := 0, clicks := 0, ctr := 0, cpc := 0,
                 cpm := 0, roas := 0, conversions := 0, conversion_rate := 0 } := by
  constructor
  · intro ins h1 h2 h3 h4
    rcases hs : pyFloat (ins.spend.getD (PyVal.i 0)) with _ | spend
    · rw [hs] at h1; simp at h1
    rcases hi : pyInt (ins.impressions.getD (PyVal.i 0)) with _ | impressions
    · rw [hi] at h2; simp at h2
    rcases hc : pyInt (ins.clicks.getD (PyVal.i 0)) with _ | clicks
    · rw [hc] at h3; simp at h3
    rcases ha : sumConversions (ins.actions.getD []) with _ | conversions
    · rw [ha] at h4; simp at h4
    refine ⟨{ spend := spend, impressions := impressions, clicks := clicks,
              ctr := (pyFloat (ins.ctr.getD (PyVal.s "0"))).getD 0,
              cpc := (pyFloat (ins.cpc.getD (PyVal.s "0"))).getD 0,
              cpm := (pyFloat (ins.cpm.getD (PyVal.s "0"))).getD 0,
              roas := roasOf ins.purchase_roas, conversions := conversions,
              conversion_rate :=
                if 0 < clicks then (conversions : ℚ) / (clicks : ℚ) * 100 else 0 },
            ?_, rfl, rfl, rfl, rfl, rfl⟩
    unfold flattenInsights
    rw [hs, hi, hc, ha]
  · rfl

/-- Witness for C9 at a concrete input: the all-absent insights record has
numeric defaults everywhere, so the flattener succeeds with the stated
field values. -/
theorem c9_numeric_coercion_witness :
    ∃ v, flattenInsights
        { spend := none, impressions := none, clicks := none, ctr := none,
          cpc := none, cpm := none, actions := none, purchase_roas := none }
        = some v
      ∧ v.ctr = (pyFloat ((none : Option PyVal).getD (PyVal.s "0"))).getD 0
      ∧ v.cpc = (pyFloat ((none : Option PyVal).getD (PyVal.s "0"))).getD 0
      ∧ v.cpm = (pyFloat ((none : Option PyVal).getD (PyVal.s "0"))).getD 0
      ∧ v.roas = roasOf none
      ∧ v.conversion_rate
          = (if 0 < v.clicks then (v.conversions : ℚ) / (v.clicks : ℚ) * 100 else 0) :=
  c9_numeric_coercion.1
    { spend := none, impressions := none, clicks := none, ctr := none,
      cpc := none, cpm := none, actions := none, purchase_roas := none }
    (by decide) (by decide) (by decide) (by decide)

/-- C7: `determine_format_category` is a pure function of which reference
fields are non-empty, evaluated in fixed priority order
video > carousel > static image > unknown; in particular it agrees with the
priority classifier on every presence/absence combination (sampled
exhaustively over all combinations of the three reference kinds, the
all-absent combination giving "Unknown"). -/
theorem c7_format_category_priority :
    (∀ c? : Option Creative,
      determine_format_category c? =
        specFormatOfPresence (videoPresent c?) (carouselPresent c?) (imagePresent c?))
    ∧ (∀ v c i : Bool,
        determine_format_category (some (sampleCreative v c i)) = specFormatOfPresence v c i)
    ∧ determine_format_category none = "Unknown" := by
  refine ⟨fun c? => ?_, by decide, rfl⟩
  cases c? <;> rfl

end GetData
